import Mathlib

/-!
Verification of the segmentio / indexwrapper storage core of matrixone.

The shallow embedding below translates, from the Go source:
  * `columnBlock` and its operations (`newColumnBlock`, `openColumnBlock`,
    `WriteTS`, `ReadTS`, `WriteIndex`, `ReadIndex`, `OpenUpdateFile`,
    `OpenDataFile`, `OpenIndexFile`, from segmentio);
  * `segmentFile.Replay`'s file-name parsing loop (segmentio);
  * `immutableIndex.Dedup` and `immutableIndex.BatchDedup` (indexwrapper);
  * `BuildAndFlushBlockIndex` (tables/jobs/helper.go), with each fallible
    collaborator call abstracted as a predetermined outcome.
Components whose code is not part of this excerpt (the zone-map and
bloom-filter reader/writer internals, `common.RefHelper`) are modelled from
the specification and carry a doc comment saying so.
-/

/-- A raw block-file handle: name plus the stat metadata (`GetFileSize`,
`GetOriginSize`, `GetAlgo`, `GetName`) the replay loop reads off it. -/
structure BlockFileHandle where
  name : String
  size : Nat
  originSize : Nat
  algo : Nat
  deriving Repr, DecidableEq

/-- `segment.Segment.NewBlockFile`: creates a fresh block file of the given
name (fresh files carry zero stat metadata). -/
def NewBlockFile (name : String) : BlockFileHandle :=
  { name := name, size := 0, originSize := 0, algo := 0 }

/-- The `dataFile.stat` record of a column block (`common.FileInfo`). -/
structure FileStat where
  size : Nat
  originSize : Nat
  algo : Nat
  name : String
  deriving Repr, DecidableEq

/-- `file.ErrInvalidParam`, the error taxonomy of the column-block slot
operations. -/
inductive FileErr where
  | invalidParam
  deriving Repr, DecidableEq

/-- Instrumentation of file I/O performed by an index-slot operation, used
to state that the out-of-range path performs no I/O. -/
inductive IOEvent where
  | writeFile (slot : Nat) (buf : List Nat)
  | readFile (slot : Nat)
  deriving Repr, DecidableEq

/-- Which of a column block's files a `common.IRWFile` handle returned by an
open operation denotes. -/
inductive CBFile where
  | dataF
  | updatesF
  | indexF (slot : Nat)
  deriving Repr, DecidableEq

/-- The `columnBlock` struct of segmentio: per-column physical storage of one
block.  `indexes` holds the contents of the fixed index-slot files,
`dataFile` is the `data.file` slice (`none` is Go `nil`, `some l` a slice
with entries `l`), `updatesRefs`/`dataRefs`/`indexRefs` are the reference
counts of the owned sub-files touched by the open operations. -/
structure ColumnBlock where
  blockId : Nat
  ts : Nat
  col : Nat
  indexes : List (List Nat)
  indexRefs : List Nat
  updatesRefs : Nat
  dataRefs : Nat
  dataFile : Option (List BlockFileHandle)
  dataStat : FileStat
  deriving Repr, DecidableEq

/-- Name of the base data file: `fmt.Sprintf("%d_%d.blk", col, blockId)`. -/
def baseName (col blockId : Nat) : String :=
  Nat.repr col ++ "_" ++ Nat.repr blockId ++ ".blk"

/-- Name of a versioned data file:
`fmt.Sprintf("%d_%d_%d.blk", col, blockId, ts)`. -/
def versionName (col blockId ts : Nat) : String :=
  Nat.repr col ++ "_" ++ Nat.repr blockId ++ "_" ++ Nat.repr ts ++ ".blk"

/-- `newColumnBlock`: fresh column block with `indexCnt` empty index slots
and a data-file slice holding the single base file. -/
def newColumnBlock (blockId indexCnt col : Nat) : ColumnBlock :=
  { blockId := blockId
    ts := 0
    col := col
    indexes := List.replicate indexCnt []
    indexRefs := List.replicate indexCnt 0
    updatesRefs := 0
    dataRefs := 0
    dataFile := some [NewBlockFile (baseName col blockId)]
    dataStat := { size := 0, originSize := 0, algo := 0, name := "" } }

/-- `openColumnBlock`: column block opened for replay; the data-file slice is
`make([]*segment.BlockFile, 0)` — an empty but non-nil slice. -/
def openColumnBlock (blockId indexCnt col : Nat) : ColumnBlock :=
  { blockId := blockId
    ts := 0
    col := col
    indexes := List.replicate indexCnt []
    indexRefs := List.replicate indexCnt 0
    updatesRefs := 0
    dataRefs := 0
    dataFile := some []
    dataStat := { size := 0, originSize := 0, algo := 0, name := "" } }

/-- `columnBlock.WriteTS`: store the timestamp; if `data.file != nil`,
append a new versioned block file to the sequence. -/
def ColumnBlock.WriteTS (cb : ColumnBlock) (ts : Nat) : ColumnBlock :=
  { cb with
    ts := ts
    dataFile := cb.dataFile.map
      (fun fs => fs ++ [NewBlockFile (versionName cb.col cb.blockId ts)]) }

/-- `columnBlock.ReadTS`. -/
def ColumnBlock.ReadTS (cb : ColumnBlock) : Nat := cb.ts

/-- `columnBlock.WriteIndex`: out-of-range slot fails with
`ErrInvalidParam` before any I/O; otherwise the slot file is written. -/
def ColumnBlock.WriteIndex (cb : ColumnBlock) (idx : Nat) (buf : List Nat) :
    Option FileErr × ColumnBlock × List IOEvent :=
  if cb.indexes.length ≤ idx then
    (some FileErr.invalidParam, cb, [])
  else
    (none, { cb with indexes := cb.indexes.set idx buf },
      [IOEvent.writeFile idx buf])

/-- `columnBlock.ReadIndex`: out-of-range slot fails with `ErrInvalidParam`
before any I/O; otherwise the slot file is read. -/
def ColumnBlock.ReadIndex (cb : ColumnBlock) (idx : Nat) :
    Option FileErr × List Nat × List IOEvent :=
  if cb.indexes.length ≤ idx then
    (some FileErr.invalidParam, [], [])
  else
    (none, cb.indexes.getD idx [], [IOEvent.readFile idx])

/-- `columnBlock.OpenUpdateFile`: the Go body is
`cb.updates.Ref(); vfile = cb.data; return` — it increments the updates
file's reference count but hands back the data file handle. -/
def ColumnBlock.OpenUpdateFile (cb : ColumnBlock) : CBFile × ColumnBlock :=
  (CBFile.dataF, { cb with updatesRefs := cb.updatesRefs + 1 })

/-- `columnBlock.OpenDataFile`: refs and returns the data file. -/
def ColumnBlock.OpenDataFile (cb : ColumnBlock) : CBFile × ColumnBlock :=
  (CBFile.dataF, { cb with dataRefs := cb.dataRefs + 1 })

/-- `columnBlock.OpenIndexFile`: range-checked; refs and returns the slot
file. -/
def ColumnBlock.OpenIndexFile (cb : ColumnBlock) (idx : Nat) :
    Option FileErr × CBFile × ColumnBlock :=
  if cb.indexes.length ≤ idx then
    (some FileErr.invalidParam, CBFile.indexF idx, cb)
  else
    (none, CBFile.indexF idx,
      { cb with indexRefs := cb.indexRefs.set idx (cb.indexRefs.getD idx 0 + 1) })

/-- `strconv.ParseUint(s, 10, bits)` of Go over the decimal field's
characters: digits only, no sign, errors on the empty string, on any
non-digit character, and on values that do not fit in `bits` bits. -/
def parseUintGo (s : List Char) (bits : Nat) : Option Nat :=
  if s.isEmpty then none
  else if s.all (fun c => c.isDigit) then
    let n := s.foldl (fun acc c => acc * 10 + (c.toNat - 48)) 0
    if n < 2 ^ bits then some n else none
  else none

/-- If `sep` is a leading run of `s`, the remainder of `s` after it. -/
def dropSep : List Char → List Char → Option (List Char)
  | [], s => some s
  | _ :: _, [] => none
  | a :: as, b :: bs => if a = b then dropSep as bs else none

/-- Fuel-driven body of `strings.Split` over character lists: scan left to
right, cutting at each non-overlapping occurrence of `sep`.  The fuel is
only a termination device; `s.length` fuel is enough whenever `sep` is
non-empty, as every step consumes at least one character. -/
def splitOnAuxL (sep : List Char) : Nat → List Char → List (List Char)
  | _, [] => [[]]
  | 0, s => [s]
  | Nat.succ fuel, c :: rest =>
    match dropSep sep (c :: rest) with
    | some rem => [] :: splitOnAuxL sep fuel rem
    | none =>
      match splitOnAuxL sep fuel rest with
      | [] => [[c]]
      | r :: rs => (c :: r) :: rs

/-- `strings.Split(s, sep)` of Go, for the non-empty separators this layer
uses (`".blk"` and `"_"`). -/
def splitOnL (sep : List Char) (s : List Char) : List (List Char) :=
  splitOnAuxL sep s.length s

/-- The name-classification step of `segmentFile.Replay`:
`strings.Split(name, ".blk")` then `strings.Split(tmpName[0], "_")`. -/
def splitName (name : String) : List (List Char) :=
  splitOnL "_".toList ((splitOnL ".blk".toList name.toList).headD [])

/-- Modelled from the spec: `replayBlock` — the Block Store created lazily
during replay, holding one column store opened for replay per schema
column (`indexCnt` is the per-column index-slot count map; a column absent
from the Go map yields the zero value). `replayBlock`'s own body is not in
this excerpt. -/
def replayBlock (id : Nat) (colCnt : Nat) (indexCnt : Nat → Nat) :
    List ColumnBlock :=
  (List.range colCnt).map (fun c => openColumnBlock id (indexCnt c) c)

/-- A `blockFile` as the replay loop sees it: its id and column array. -/
structure BlockFileM where
  id : Nat
  columns : List ColumnBlock
  deriving Repr, DecidableEq

/-- Look a block up in the map. -/
def lookupBlock (st : List (Nat × BlockFileM)) (id : Nat) :
    Option BlockFileM :=
  (st.find? (fun e => e.1 = id)).map (fun e => e.2)

/-- Replace the entry of a block id. -/
def updateBlock (st : List (Nat × BlockFileM)) (id : Nat)
    (f : BlockFileM → BlockFileM) : List (Nat × BlockFileM) :=
  st.map (fun e => if e.1 = id then (e.1, f e.2) else e)

/-- Apply `f` to position `i` of a list, out-of-range is a no-op. -/
def listModify (l : List ColumnBlock) (i : Nat)
    (f : ColumnBlock → ColumnBlock) : List ColumnBlock :=
  match l, i with
  | [], _ => []
  | x :: xs, 0 => f x :: xs
  | x :: xs, Nat.succ j => x :: listModify xs j f

/-- The per-name body of `segmentFile.Replay`'s loop: classify the
persisted name; fewer than two `_`-fields is skipped; a failing
`ParseUint` aborts the replay with an error; otherwise the handle is
appended to the named column's data-file sequence, its stat recorded, and
a third field raises the column's timestamp to the max. -/
def replayName (colCnt : Nat) (indexCnt : Nat → Nat)
    (st : List (Nat × BlockFileM)) (node : String × BlockFileHandle) :
    Except String (List (Nat × BlockFileM)) :=
  let fileName := splitName node.1
  if fileName.length < 2 then Except.ok st
  else
    match parseUintGo (fileName.getD 1 []) 32 with
    | none => Except.error ("ParseUint: " ++ String.mk (fileName.getD 1 []))
    | some id =>
      let st' :=
        match lookupBlock st id with
        | some _ => st
        | none => st ++ [(id, { id := id, columns := replayBlock id colCnt indexCnt })]
      match parseUintGo (fileName.getD 0 []) 32 with
      | none => Except.error ("ParseUint: " ++ String.mk (fileName.getD 0 []))
      | some col =>
        let upd : ColumnBlock → ColumnBlock := fun cb =>
          { cb with
            dataFile := some (cb.dataFile.getD [] ++ [node.2])
            dataStat :=
              { size := node.2.size
                originSize := node.2.originSize
                algo := node.2.algo
                name := node.2.name } }
        if fileName.length > 2 then
          match parseUintGo (fileName.getD 2 []) 64 with
          | none => Except.error ("ParseUint: " ++ String.mk (fileName.getD 2 []))
          | some ts =>
            Except.ok (updateBlock st' id (fun bf =>
              { bf with columns := listModify bf.columns col (fun cb =>
                  let cb := upd cb
                  if cb.ts < ts then { cb with ts := ts } else cb) }))
        else
          Except.ok (updateBlock st' id (fun bf =>
            { bf with columns := listModify bf.columns col upd }))

/-- The loop of `segmentFile.Replay` over the raw store's name listing. -/
def replayLoop (colCnt : Nat) (indexCnt : Nat → Nat)
    (st : List (Nat × BlockFileM)) :
    List (String × BlockFileHandle) → Except String (List (Nat × BlockFileM))
  | [] => Except.ok st
  | node :: rest =>
    match replayName colCnt indexCnt st node with
    | Except.error e => Except.error e
    | Except.ok st' => replayLoop colCnt indexCnt st' rest

/-- `segmentFile.Replay`: rebuild the block map from the persisted name
listing (the raw store's `GetNodes`), starting from an empty map. -/
def Replay (colCnt : Nat) (indexCnt : Nat → Nat)
    (nodes : List (String × BlockFileHandle)) :
    Except String (List (Nat × BlockFileM)) :=
  replayLoop colCnt indexCnt [] nodes

/-- Modelled from the spec: the state of `common.RefHelper` (whose code is
not in this excerpt) — an atomic reference counter plus the number of
times the zero-crossing destroy callback (`OnZeroCB`) has fired. -/
structure RefState where
  count : Int
  fired : Nat
  deriving Repr, DecidableEq

/-- A reference-count operation: `Ref()` or `Unref()` (`Close` is one
`Unref`). -/
inductive RefOp where
  | ref
  | unref
  deriving Repr, DecidableEq

/-- Modelled from the spec: `Ref` increments the count; `Unref` decrements
it and fires the destroy callback exactly when the decrement produces
zero. -/
def refStep (s : RefState) (op : RefOp) : RefState :=
  match op with
  | RefOp.ref => { s with count := s.count + 1 }
  | RefOp.unref =>
    let c := s.count - 1
    if c = 0 then { count := c, fired := s.fired + 1 }
    else { s with count := c }

/-- Run a sequence of ref/unref operations. -/
def refRun (s : RefState) (ops : List RefOp) : RefState :=
  ops.foldl refStep s

/-- The state a `newColumnBlock` / `newSegmentFile` starts in: the
constructor calls `Ref()` once, so the initial count is 1 and the destroy
callback has not fired. -/
def refInit : RefState := { count := 1, fired := 0 }

/-- A usage-legal trace: every operation happens while the object is alive
(count at least 1, destroy callback not yet fired) — the spec calls any
access after the destroy callback a usage error. -/
inductive ValidTrace : RefState → List RefOp → Prop where
  | nil (s : RefState) : ValidTrace s []
  | cons (s : RefState) (op : RefOp) (ops : List RefOp)
      (halive : 1 ≤ s.count) (hfired : s.fired = 0)
      (htail : ValidTrace (refStep s op) ops) : ValidTrace s (op :: ops)

/-- The zone-map reader (`ZMReader`) of indexwrapper.  Modelled from the
spec: an exact min/max summary over the block's primary-key column. -/
structure ZMReader where
  lo : Int
  hi : Int
  deriving Repr, DecidableEq

/-- Modelled from the spec: `ZMReader.Contains` answers whether the key lies
within the zone map's `[min, max]` range. -/
def ZMReader.Contains (zm : ZMReader) (key : Int) : Bool :=
  decide (zm.lo ≤ key) && decide (key ≤ zm.hi)

/-- A concrete hash for the bloom-filter model: collisions (false
positives) are possible, but equal keys always hash equally. -/
def bfHash (key : Int) : Nat := (key.natAbs + 7) % 64

/-- The bloom-filter reader (`BFReader`) of indexwrapper.  Modelled from the
spec: a probabilistic membership summary storing the hash positions set by
the inserted keys; no false negatives, false positives allowed. -/
structure BFReader where
  bits : List Nat
  deriving Repr, DecidableEq

/-- Modelled from the spec: `BFReader.MayContainsKey` answers "may be
present" exactly when the key's hash position is set; decode failures of
the underlying reader surface as an `Except.error`, which this model's
concrete filter never produces. -/
def BFReader.MayContainsKey (bf : BFReader) (key : Int) :
    Except String Bool :=
  Except.ok (decide (bfHash key ∈ bf.bits))

/-- Modelled from the spec: the vectorized filter query
`MayContainsAnyKeys` narrows the zone-map selection to the positions whose
key the filter may contain, and reports whether that narrowing is
non-empty. -/
def BFReader.MayContainsAnyKeys (bf : BFReader) (keys : List Int)
    (sel : List Nat) : Except String (Bool × List Nat) :=
  let sel2 := sel.filter (fun i => decide (bfHash (keys.getD i 0) ∈ bf.bits))
  Except.ok (!sel2.isEmpty, sel2)

/-- Modelled from the spec: the vectorized zone-map query `ContainsAny`
selects the positions of the keys inside `[min, max]` and reports whether
any key is inside. -/
def ZMReader.ContainsAny (zm : ZMReader) (keys : List Int) :
    List Nat × Bool :=
  let sel := (List.range keys.length).filter
    (fun i => zm.Contains (keys.getD i 0))
  (sel, !sel.isEmpty)

/-- `TranslateError` of indexwrapper: a filter-internal error is translated
into this layer's error domain (`IndexReadFailure`). -/
def TranslateError (e : String) : String := "IndexReadFailure: " ++ e

/-- The non-nil results of the dedup operations: the designed
possible-duplicate signal (`data.ErrPossibleDuplicate`) or a translated
reader error. -/
inductive DedupErr where
  | possibleDuplicate
  | translated (e : String)
  deriving Repr, DecidableEq

/-- The `immutableIndex` of indexwrapper: a zone-map reader and a
bloom-filter reader bound to one sealed block. -/
structure immutableIndex where
  zmReader : ZMReader
  bfReader : BFReader
  deriving Repr, DecidableEq

/-- `immutableIndex.Dedup`: zone-map fast path first; on a zone-map hit the
bloom filter decides between success, a translated error, and the
possible-duplicate signal.  `none` is the Go `nil` error (success). -/
def immutableIndex.Dedup (index : immutableIndex) (key : Int) :
    Option DedupErr :=
  if !(index.zmReader.Contains key) then none
  else
    match index.bfReader.MayContainsKey key with
    | Except.error e => some (DedupErr.translated (TranslateError e))
    | Except.ok true => some DedupErr.possibleDuplicate
    | Except.ok false => none

/-- Instrumentation of `immutableIndex.Dedup`: the bloom-filter reader is
consulted exactly when the zone-map check passes (the `!exist` early
return precedes the only `bfReader` call). -/
def immutableIndex.DedupConsultsBF (index : immutableIndex) (key : Int) :
    Bool :=
  index.zmReader.Contains key

/-- `immutableIndex.BatchDedup`: zone map selects the in-range positions;
an empty selection is success; otherwise the bloom filter narrows the
selection, an empty narrowing is success, a non-empty one is the
possible-duplicate signal.  `rowmask` is the `excludedMask` argument,
carried but never read by the Go body. -/
def immutableIndex.BatchDedup (index : immutableIndex) (keys : List Int)
    (rowmask : Option (List Nat)) : List Nat × Option DedupErr :=
  let p := index.zmReader.ContainsAny keys
  if !p.2 then (p.1, none)
  else
    match index.bfReader.MayContainsAnyKeys keys p.1 with
    | Except.error e => (p.1, some (DedupErr.translated (TranslateError e)))
    | Except.ok (exist, ks) =>
      if !exist then (ks, none)
      else (ks, some DedupErr.possibleDuplicate)

/-- Modelled from the spec: `ZMWriter` — building the zone map over the
primary-key values computes their exact minimum and maximum. -/
def buildZM (vals : List Int) : ZMReader :=
  { lo := vals.foldl min (vals.headD 0)
    hi := vals.foldl max (vals.headD 0) }

/-- Modelled from the spec: `BFWriter` — building the bloom filter inserts
every primary-key value, setting its hash position. -/
def buildBF (vals : List Int) : BFReader :=
  { bits := vals.map bfHash }

/-- The index an `immutableIndex.ReadFrom` rehydrates after
`BuildAndFlushBlockIndex` ran over the primary-key values `vals`: the
zone map of slot 0 and the bloom filter of slot 1, both built from
`vals`. -/
def buildImmutableIndex (vals : List Int) : immutableIndex :=
  { zmReader := buildZM vals, bfReader := buildBF vals }

/-- The steps of `BuildAndFlushBlockIndex`, in source order. -/
inductive StepName where
  | openColumn
  | openZmFile
  | zmInit
  | zmAdd
  | zmFinalize
  | openSfFile
  | bfInit
  | bfAdd
  | bfFinalize
  | marshal
  | writeMeta
  deriving Repr, DecidableEq

/-- The predetermined outcomes of the fallible collaborator calls made by
`BuildAndFlushBlockIndex` (open a column or index file, init/add/finalize
a writer, marshal the metadata, write the metadata blob).  Each field is
the result the call would return when reached. -/
structure BuildEnv where
  openColumn : Except String Unit
  openZmFile : Except String Unit
  zmInit : Except String Unit
  zmAdd : Except String Unit
  zmFinalize : Except String Unit
  openSfFile : Except String Unit
  bfInit : Except String Unit
  bfAdd : Except String Unit
  bfFinalize : Except String Unit
  marshal : Except String Unit
  writeMeta : Except String Unit

/-- What a run of the job did: the value it returned (`Except.ok ()` is the
Go `nil` error) and the steps it attempted, in order. -/
structure BuildOutcome where
  result : Except String Unit
  trace : List StepName
  deriving Repr

/-- `BuildAndFlushBlockIndex`: open the primary-key column, then build and
flush the zone map (slot 0), then the bloom filter (slot 1), then marshal
the collected index metadata, and only then write the block's
index-metadata blob; the first failing step aborts the job with its
error. -/
def BuildAndFlushBlockIndex (env : BuildEnv) : BuildOutcome :=
  match env.openColumn with
  | Except.error e => ⟨Except.error e, [StepName.openColumn]⟩
  | Except.ok _ =>
  match env.openZmFile with
  | Except.error e => ⟨Except.error e,
      [StepName.openColumn, StepName.openZmFile]⟩
  | Except.ok _ =>
  match env.zmInit with
  | Except.error e => ⟨Except.error e,
      [StepName.openColumn, StepName.openZmFile, StepName.zmInit]⟩
  | Except.ok _ =>
  match env.zmAdd with
  | Except.error e => ⟨Except.error e,
      [StepName.openColumn, StepName.openZmFile, StepName.zmInit,
        StepName.zmAdd]⟩
  | Except.ok _ =>
  match env.zmFinalize with
  | Except.error e => ⟨Except.error e,
      [StepName.openColumn, StepName.openZmFile, StepName.zmInit,
        StepName.zmAdd, StepName.zmFinalize]⟩
  | Except.ok _ =>
  match env.openSfFile with
  | Except.error e => ⟨Except.error e,
      [StepName.openColumn, StepName.openZmFile, StepName.zmInit,
        StepName.zmAdd, StepName.zmFinalize, StepName.openSfFile]⟩
  | Except.ok _ =>
  match env.bfInit with
  | Except.error e => ⟨Except.error e,
      [StepName.openColumn, StepName.openZmFile, StepName.zmInit,
        StepName.zmAdd, StepName.zmFinalize, StepName.openSfFile,
        StepName.bfInit]⟩
  | Except.ok _ =>
  match env.bfAdd with
  | Except.error e => ⟨Except.error e,
      [StepName.openColumn, StepName.openZmFile, StepName.zmInit,
        StepName.zmAdd, StepName.zmFinalize, StepName.openSfFile,
        StepName.bfInit, StepName.bfAdd]⟩
  | Except.ok _ =>
  match env.bfFinalize with
  | Except.error e => ⟨Except.error e,
      [StepName.openColumn, StepName.openZmFile, StepName.zmInit,
        StepName.zmAdd, StepName.zmFinalize, StepName.openSfFile,
        StepName.bfInit, StepName.bfAdd, StepName.bfFinalize]⟩
  | Except.ok _ =>
  match env.marshal with
  | Except.error e => ⟨Except.error e,
      [StepName.openColumn, StepName.openZmFile, StepName.zmInit,
        StepName.zmAdd, StepName.zmFinalize, StepName.openSfFile,
        StepName.bfInit, StepName.bfAdd, StepName.bfFinalize,
        StepName.marshal]⟩
  | Except.ok _ =>
    ⟨env.writeMeta,
      [StepName.openColumn, StepName.openZmFile, StepName.zmInit,
        StepName.zmAdd, StepName.zmFinalize, StepName.openSfFile,
        StepName.bfInit, StepName.bfAdd, StepName.bfFinalize,
        StepName.marshal, StepName.writeMeta]⟩

/-- The outcomes of the steps that precede the metadata write, in source
order. -/
def preSteps (env : BuildEnv) : List (Except String Unit) :=
  [env.openColumn, env.openZmFile, env.zmInit, env.zmAdd, env.zmFinalize,
   env.openSfFile, env.bfInit, env.bfAdd, env.bfFinalize, env.marshal]

/-- The first error among the pre-metadata steps, if any. -/
def firstPreErr (env : BuildEnv) : Option String :=
  (preSteps env).findSome? (fun r =>
    match r with
    | Except.error e => some e
    | Except.ok _ => none)

/-- A build environment where every collaborator call succeeds except
`zoneMapWriter.AddValues`, used to exercise the abort path. -/
def envZmAddFails : BuildEnv :=
  { openColumn := Except.ok ()
    openZmFile := Except.ok ()
    zmInit := Except.ok ()
    zmAdd := Except.error "boom"
    zmFinalize := Except.ok ()
    openSfFile := Except.ok ()
    bfInit := Except.ok ()
    bfAdd := Except.ok ()
    bfFinalize := Except.ok ()
    marshal := Except.ok ()
    writeMeta := Except.ok () }

/- ## Helper lemmas -/

theorem le_foldl_max (l : List Int) (a : Int) : a ≤ l.foldl max a := by
  induction l generalizing a with
  | nil => simp [List.foldl]
  | cons y t ih =>
    simpa [List.foldl] using le_trans (le_max_left a y) (ih (max a y))

theorem mem_le_foldl_max (l : List Int) (a x : Int) (hx : x ∈ l) :
    x ≤ l.foldl max a := by
  induction l generalizing a with
  | nil => cases hx
  | cons y t ih =>
    simp only [List.foldl]
    rcases List.mem_cons.mp hx with h | h
    · subst h
      exact le_trans (le_max_right a x) (le_foldl_max t (max a x))
    · exact ih (max a y) h

theorem foldl_min_le (l : List Int) (a : Int) : l.foldl min a ≤ a := by
  induction l generalizing a with
  | nil => simp [List.foldl]
  | cons y t ih =>
    simpa [List.foldl] using le_trans (ih (min a y)) (min_le_left a y)

theorem foldl_min_le_mem (l : List Int) (a x : Int) (hx : x ∈ l) :
    l.foldl min a ≤ x := by
  induction l generalizing a with
  | nil => cases hx
  | cons y t ih =>
    simp only [List.foldl]
    rcases List.mem_cons.mp hx with h | h
    · subst h
      exact le_trans (foldl_min_le t (min a x)) (min_le_right a x)
    · exact ih (min a y) h

/- ## Claim theorems -/

/-- Claim C1: no false negatives in dedup — for any set of primary-key
values used to build the block's zone-map and bloom-filter indexes, every
key of that set is reported as a possible duplicate by `Dedup` on the
rehydrated immutable index, never as a clean success. -/
theorem C1_dedup_no_false_negatives (V : List Int) (k : Int) (hk : k ∈ V) :
    (buildImmutableIndex V).Dedup k = some DedupErr.possibleDuplicate := by
  have hlo : (buildImmutableIndex V).zmReader.lo ≤ k :=
    foldl_min_le_mem V (V.headD 0) k hk
  have hhi : k ≤ (buildImmutableIndex V).zmReader.hi :=
    mem_le_foldl_max V (V.headD 0) k hk
  have hmem : bfHash k ∈ (buildImmutableIndex V).bfReader.bits :=
    List.mem_map_of_mem bfHash hk
  simp [immutableIndex.Dedup, ZMReader.Contains, BFReader.MayContainsKey,
    hlo, hhi, hmem]

/-- Witness for C1 at the spec's concrete scenario `V = [1,5,10,50]`,
`k = 5`. -/
theorem C1_dedup_no_false_negatives_witness :
    (5 : Int) ∈ [(1 : Int), 5, 10, 50] ∧
    (buildImmutableIndex [1, 5, 10, 50]).Dedup 5 =
      some DedupErr.possibleDuplicate :=
  ⟨by decide, C1_dedup_no_false_negatives [1, 5, 10, 50] 5 (by decide)⟩

/-- Claim C2: fast-reject short-circuit — a key strictly below the
zone-map minimum or strictly above its maximum makes `Dedup` return
success without consulting the bloom-filter reader. -/
theorem C2_fast_reject (index : immutableIndex) (key : Int)
    (h : key < index.zmReader.lo ∨ index.zmReader.hi < key) :
    index.Dedup key = none ∧ index.DedupConsultsBF key = false := by
  have hc : index.zmReader.Contains key = false := by
    rcases h with h | h <;> simp [ZMReader.Contains] <;> omega
  simp [immutableIndex.Dedup, immutableIndex.DedupConsultsBF, hc]

/-- Witness for C2 at the spec's concrete scenario: key 100 is above the
zone-map maximum 50 of the index built over `[1,5,10,50]`. -/
theorem C2_fast_reject_witness :
    ((100 : Int) < (buildImmutableIndex [1, 5, 10, 50]).zmReader.lo ∨
      (buildImmutableIndex [1, 5, 10, 50]).zmReader.hi < 100) ∧
    (buildImmutableIndex [1, 5, 10, 50]).Dedup 100 = none ∧
    (buildImmutableIndex [1, 5, 10, 50]).DedupConsultsBF 100 = false := by
  have h : (100 : Int) < (buildImmutableIndex [1, 5, 10, 50]).zmReader.lo ∨
      (buildImmutableIndex [1, 5, 10, 50]).zmReader.hi < 100 :=
    Or.inr (by decide)
  exact ⟨h, (C2_fast_reject (buildImmutableIndex [1, 5, 10, 50]) 100 h).1,
    (C2_fast_reject (buildImmutableIndex [1, 5, 10, 50]) 100 h).2⟩

/-- Claim C3 (code evaluation): `OpenUpdateFile` on a freshly created
column block increments the updates file's reference count but returns
the DATA file handle, not the update-log file handle. -/
theorem C3_openUpdateFile_returns_data_file :
    ((newColumnBlock 0 2 0).OpenUpdateFile).1 = CBFile.dataF ∧
    CBFile.dataF ≠ CBFile.updatesF ∧
    ((newColumnBlock 0 2 0).OpenUpdateFile).2.updatesRefs =
      (newColumnBlock 0 2 0).updatesRefs + 1 :=
  ⟨rfl, by decide, rfl⟩

/-- Counterexample to claim C4 as stated: a column store opened for replay
has an empty but non-nil data-file sequence, and `WriteTS` does append a
versioned file to it even though no base file exists. -/
theorem C4_counterexample :
    (openColumnBlock 1 2 0).dataFile = some [] ∧
    (((openColumnBlock 1 2 0).WriteTS 7).dataFile.getD []).length = 1 :=
  ⟨rfl, rfl⟩

/-- Claim C4 (amended): `WriteTS` appends a new versioned data file exactly
when the data-file sequence is non-nil; since both constructors produce
non-nil sequences, a column store opened for replay (empty sequence, no
base file) also appends on `WriteTS`. -/
theorem C4_writeVersion_append_iff_nonnil (cb : ColumnBlock)
    (ts bid ic c : Nat) :
    (cb.WriteTS ts).dataFile = cb.dataFile.map
      (fun fs => fs ++ [NewBlockFile (versionName cb.col cb.blockId ts)]) ∧
    ((openColumnBlock bid ic c).WriteTS ts).dataFile =
      some [NewBlockFile (versionName c bid ts)] :=
  ⟨rfl, rfl⟩

/-- Claim C10: `BatchDedup`'s result — selection mask and error outcome —
does not depend on the `rowmask` (excluded-mask) argument, which the body
never consults. -/
theorem C10_batchDedup_mask_independent (index : immutableIndex)
    (keys : List Int) (m1 m2 : Option (List Nat)) :
    index.BatchDedup keys m1 = index.BatchDedup keys m2 := rfl

/-- Claim C7: an index-slot argument at or above the declared slot count
makes both `WriteIndex` and `ReadIndex` fail with `InvalidParameter`,
with no file I/O performed and the column block unchanged. -/
theorem C7_out_of_range_slot (cb : ColumnBlock) (idx : Nat) (buf : List Nat)
    (h : cb.indexes.length ≤ idx) :
    cb.WriteIndex idx buf = (some FileErr.invalidParam, cb, []) ∧
    cb.ReadIndex idx = (some FileErr.invalidParam, [], []) := by
  simp [ColumnBlock.WriteIndex, ColumnBlock.ReadIndex, h]

/-- Witness for C7: slot 2 on a column block with the typical 2 declared
slots. -/
theorem C7_out_of_range_slot_witness :
    (newColumnBlock 0 2 0).indexes.length ≤ 2 ∧
    ((newColumnBlock 0 2 0).WriteIndex 2 [1] =
      (some FileErr.invalidParam, newColumnBlock 0 2 0, []) ∧
    (newColumnBlock 0 2 0).ReadIndex 2 =
      (some FileErr.invalidParam, [], [])) :=
  ⟨by decide, C7_out_of_range_slot (newColumnBlock 0 2 0) 2 [1] (by decide)⟩

/-- Claim C8: on a column store whose data-file sequence is non-nil,
`WriteTS T` appends exactly one new versioned file — the previously
stored entries stay unchanged at their positions — and a subsequent
`ReadTS` returns `T`. -/
theorem C8_version_append_only (cb : ColumnBlock)
    (fs : List BlockFileHandle) (T : Nat) (h : cb.dataFile = some fs) :
    (cb.WriteTS T).dataFile =
      some (fs ++ [NewBlockFile (versionName cb.col cb.blockId T)]) ∧
    ((cb.WriteTS T).dataFile.getD []).length = fs.length + 1 ∧
    (cb.WriteTS T).ReadTS = T := by
  simp [ColumnBlock.WriteTS, ColumnBlock.ReadTS, h]

/-- Witness for C8: a freshly created column block (base file present),
version written at timestamp 9. -/
theorem C8_version_append_only_witness :
    (newColumnBlock 2 2 1).dataFile = some [NewBlockFile (baseName 1 2)] ∧
    (((newColumnBlock 2 2 1).WriteTS 9).dataFile =
      some [NewBlockFile (baseName 1 2), NewBlockFile (versionName 1 2 9)] ∧
    ((((newColumnBlock 2 2 1).WriteTS 9).dataFile.getD []).length =
      [NewBlockFile (baseName 1 2)].length + 1) ∧
    ((newColumnBlock 2 2 1).WriteTS 9).ReadTS = 9) :=
  ⟨rfl, C8_version_append_only (newColumnBlock 2 2 1)
    [NewBlockFile (baseName 1 2)] 9 rfl⟩

/-- Skipped names do not contribute to replay: the loop over the listing
equals the loop over the listing restricted to the names with at least
two `_`-separated fields. -/
theorem replayLoop_skips_short (colCnt : Nat) (indexCnt : Nat → Nat) :
    ∀ (nodes : List (String × BlockFileHandle))
      (st : List (Nat × BlockFileM)),
      replayLoop colCnt indexCnt st nodes =
      replayLoop colCnt indexCnt st
        (nodes.filter (fun e => decide (2 ≤ (splitName e.1).length)))
  | [], _ => rfl
  | node :: rest, st => by
    by_cases h : (splitName node.1).length < 2
    · have hskip : replayName colCnt indexCnt st node = Except.ok st := by
        simp [replayName, h]
      have hf : decide (2 ≤ (splitName node.1).length) = false := by
        simp; omega
      simp only [List.filter, hf, replayLoop, hskip]
      exact replayLoop_skips_short colCnt indexCnt rest st
    · have hf : decide (2 ≤ (splitName node.1).length) = true := by
        simp; omega
      simp only [List.filter, hf, replayLoop]
      cases hr : replayName colCnt indexCnt st node with
      | error e => rfl
      | ok st' => exact replayLoop_skips_short colCnt indexCnt rest st'

/-- Counterexample to claim C5 as stated: the malformed name `"a_b.blk"`
(two fields, neither numeric) does not parse as the naming grammar, yet
replay aborts with an error on its account instead of skipping it. -/
theorem C5_counterexample :
    Replay 1 (fun _ => 2) [("a_b.blk", NewBlockFile "a_b.blk")] =
      Except.error "ParseUint: b" := rfl

/-- Claim C5 (amended): replay skips, without error and without any effect
on the result, exactly the names with fewer than two `_`-separated
fields; a name with at least two fields whose numeric fields fail to
parse aborts the whole replay with an error. -/
theorem C5_short_names_skipped (colCnt : Nat) (indexCnt : Nat → Nat)
    (nodes : List (String × BlockFileHandle)) :
    Replay colCnt indexCnt nodes =
    Replay colCnt indexCnt
      (nodes.filter (fun e => decide (2 ≤ (splitName e.1).length))) :=
  replayLoop_skips_short colCnt indexCnt nodes []

/-- A usage-legal trace stays usage-legal when truncated. -/
theorem validTrace_take :
    ∀ (ops : List RefOp) (s : RefState), ValidTrace s ops →
      ∀ n : Nat, ValidTrace s (ops.take n)
  | [], s, _, n => by simpa [List.take] using ValidTrace.nil s
  | op :: rest, s, h, 0 => ValidTrace.nil s
  | op :: rest, s, h, Nat.succ n => by
    cases h with
    | cons _ _ _ halive hfired htail =>
      exact ValidTrace.cons s op (rest.take n) halive hfired
        (validTrace_take rest (refStep s op) htail n)

/-- Along a usage-legal trace from a live, not-yet-destroyed state, the
final count is non-negative, the destroy callback has fired at most once,
and if it fired the count is zero. -/
theorem refRun_single_fire :
    ∀ (ops : List RefOp) (s : RefState), ValidTrace s ops → s.fired = 0 →
      1 ≤ s.count →
      0 ≤ (refRun s ops).count ∧ (refRun s ops).fired ≤ 1 ∧
        ((refRun s ops).fired = 1 → (refRun s ops).count = 0)
  | [], s, _, hf, hc => by
    refine ⟨le_trans (by omega) hc, ?_, ?_⟩ <;> simp [refRun, hf]
  | op :: rest, s, h, hf, hc => by
    cases h with
    | cons _ _ _ halive hfired htail =>
      have hstep : refRun s (op :: rest) = refRun (refStep s op) rest := rfl
      cases op with
      | ref =>
        rw [hstep]
        exact refRun_single_fire rest (refStep s RefOp.ref) htail
          (by simp [refStep, hf]) (by simp [refStep]; omega)
      | unref =>
        by_cases hone : s.count - 1 = 0
        · have hs' : refStep s RefOp.unref =
              { count := s.count - 1, fired := s.fired + 1 } := by
            simp [refStep, hone]
          cases rest with
          | nil =>
            rw [hstep, hs']
            refine ⟨?_, ?_, ?_⟩
            · simp only [refRun, List.foldl]
              omega
            · simp only [refRun, List.foldl]
              omega
            · intro _
              simp only [refRun, List.foldl]
              omega
          | cons op2 rest2 =>
            cases htail with
            | cons _ _ _ halive2 hfired2 htail2 =>
              rw [hs'] at hfired2
              simp at hfired2
        · have hs' : refStep s RefOp.unref = { s with count := s.count - 1 } := by
            simp [refStep, hone]
          rw [hstep]
          exact refRun_single_fire rest (refStep s RefOp.unref) htail
            (by rw [hs']; exact hf) (by rw [hs']; simp; omega)

/-- Claim C9: reference-count single-fire — starting from the initial
count of 1, along any usage-legal sequence of ref/unref operations (no
operation after the destroy callback has fired), at every point of the
sequence the count is non-negative, the destroy callback has fired at
most once, and if it has fired the count is zero — the fire happened on
the transition from 1 to 0. -/
theorem C9_refcount_single_fire (ops : List RefOp)
    (h : ValidTrace refInit ops) (n : Nat) :
    0 ≤ (refRun refInit (ops.take n)).count ∧
    (refRun refInit (ops.take n)).fired ≤ 1 ∧
    ((refRun refInit (ops.take n)).fired = 1 →
      (refRun refInit (ops.take n)).count = 0) :=
  refRun_single_fire (ops.take n) refInit
    (validTrace_take ops refInit h n) rfl (by decide)

/-- Witness for C9: the trace ref, unref, unref from the initial count 1:
on the last unref the count crosses from 1 to 0 and the destroy callback
fires exactly once. -/
theorem C9_refcount_single_fire_witness :
    ValidTrace refInit [RefOp.ref, RefOp.unref, RefOp.unref] ∧
    (0 ≤ (refRun refInit ([RefOp.ref, RefOp.unref, RefOp.unref].take 3)).count ∧
     (refRun refInit ([RefOp.ref, RefOp.unref, RefOp.unref].take 3)).fired ≤ 1 ∧
     ((refRun refInit ([RefOp.ref, RefOp.unref, RefOp.unref].take 3)).fired = 1 →
       (refRun refInit ([RefOp.ref, RefOp.unref, RefOp.unref].take 3)).count = 0)) := by
  have hv : ValidTrace refInit [RefOp.ref, RefOp.unref, RefOp.unref] :=
    ValidTrace.cons _ _ _ (by decide) rfl
      (ValidTrace.cons _ _ _ (by decide) rfl
        (ValidTrace.cons _ _ _ (by decide) rfl (ValidTrace.nil _)))
  exact ⟨hv, C9_refcount_single_fire [RefOp.ref, RefOp.unref, RefOp.unref] hv 3⟩

/-- Claim C6: index-builder atomicity — if any pre-metadata step of the
build job fails, the job returns that first error and the metadata write
step is never reached; the metadata write is attempted only as the final
step, after every other step has succeeded. -/
theorem C6_builder_atomicity (env : BuildEnv) :
    (∀ e, firstPreErr env = some e →
      (BuildAndFlushBlockIndex env).result = Except.error e ∧
      StepName.writeMeta ∉ (BuildAndFlushBlockIndex env).trace) ∧
    (firstPreErr env = none →
      (BuildAndFlushBlockIndex env).result = env.writeMeta ∧
      (BuildAndFlushBlockIndex env).trace.getLast? = some StepName.writeMeta) := by
  obtain ⟨s1, s2, s3, s4, s5, s6, s7, s8, s9, s10, s11⟩ := env
  cases s1 with
  | error e1 => simp [BuildAndFlushBlockIndex, firstPreErr, preSteps]
  | ok u1 =>
  cases s2 with
  | error e2 => simp [BuildAndFlushBlockIndex, firstPreErr, preSteps]
  | ok u2 =>
  cases s3 with
  | error e3 => simp [BuildAndFlushBlockIndex, firstPreErr, preSteps]
  | ok u3 =>
  cases s4 with
  | error e4 => simp [BuildAndFlushBlockIndex, firstPreErr, preSteps]
  | ok u4 =>
  cases s5 with
  | error e5 => simp [BuildAndFlushBlockIndex, firstPreErr, preSteps]
  | ok u5 =>
  cases s6 with
  | error e6 => simp [BuildAndFlushBlockIndex, firstPreErr, preSteps]
  | ok u6 =>
  cases s7 with
  | error e7 => simp [BuildAndFlushBlockIndex, firstPreErr, preSteps]
  | ok u7 =>
  cases s8 with
  | error e8 => simp [BuildAndFlushBlockIndex, firstPreErr, preSteps]
  | ok u8 =>
  cases s9 with
  | error e9 => simp [BuildAndFlushBlockIndex, firstPreErr, preSteps]
  | ok u9 =>
  cases s10 with
  | error e10 => simp [BuildAndFlushBlockIndex, firstPreErr, preSteps]
  | ok u10 => simp [BuildAndFlushBlockIndex, firstPreErr, preSteps]

/-- Witness for C6: every collaborator call succeeds except the zone-map
`AddValues`, whose error aborts the job before the metadata write. -/
theorem C6_builder_atomicity_witness :
    firstPreErr envZmAddFails = some "boom" ∧
    (BuildAndFlushBlockIndex envZmAddFails).result = Except.error "boom" ∧
    StepName.writeMeta ∉ (BuildAndFlushBlockIndex envZmAddFails).trace :=
  ⟨rfl, ((C6_builder_atomicity envZmAddFails).1 "boom" rfl).1,
    ((C6_builder_atomicity envZmAddFails).1 "boom" rfl).2⟩
